import Mathlib

/-!
Verification development for the Valetudo map widgets.

Two widget variants are embedded:
* `VacuumMap` — the custom-element map in `client/src` (vacuum-map, gesture
  dispatch over a list of locations, coordinate conversion to robot
  millimeters, pinch/scroll zoom, websocket live updates);
* `RawMap` — the secondary raw-map renderer in `client/js/Map.js`
  (viewport transform, binary payload decoding, clamped mousewheel zoom).

JavaScript numbers are modelled as exact rationals (`ℚ`); byte streams as
lists of naturals; JS exceptions (DataView range errors, JSON parse
failures) as `Option`.
-/

namespace VacuumMap

/-- Function `convertToRealCoords` from `client/src`: map-space coordinate `c`
becomes `Math.floor(c * 50)` millimeters, per axis. -/
def convertToRealCoords (p : ℚ × ℚ) : ℤ × ℤ :=
  (⌊p.1 * 50⌋, ⌊p.2 * 50⌋)

/-- Modelled from the spec: the inverse conversion used in the round-trip
property — "converting the result back (via the known fixed scale
factor)", i.e. dividing the millimeter value by 50.  No such function
exists in the source; the spec defines the round trip by this division. -/
def convertFromRealCoords (p : ℤ × ℤ) : ℚ × ℚ :=
  ((p.1 : ℚ) / 50, (p.2 : ℚ) / 50)

/-- The location overlay variants.  `GotoPoint(x, y)` and
`Zone(x1, y1, x2, y2)`, each carrying an `active` flag (the `locations.js`
module declares them; their geometry fields are what `getLocations`
reads). -/
inductive Loc where
  | gotoPoint (x y : ℚ) (active : Bool)
  | zone (x1 y1 x2 y2 : ℚ) (active : Bool)
deriving DecidableEq

/-- Test `location instanceof GotoPoint`. -/
def Loc.isGoto : Loc → Bool
  | .gotoPoint _ _ _ => true
  | .zone _ _ _ _ _ => false

/-- Test `location instanceof Zone`. -/
def Loc.isZone : Loc → Bool
  | .gotoPoint _ _ _ => false
  | .zone _ _ _ _ _ => true

/-- Function `prepareGotoCoordinatesForApi` from `getLocations`. -/
def prepareGotoCoordinatesForApi (x y : ℚ) : ℤ × ℤ :=
  convertToRealCoords (x, y)

/-- Function `prepareZoneCoordinatesForApi` from `getLocations`: converts both
corners independently, then emits
`[min x, min y, max x, max y]` of the converted corners. -/
def prepareZoneCoordinatesForApi (x1 y1 x2 y2 : ℚ) : List ℤ :=
  let p1Real := convertToRealCoords (x1, y1)
  let p2Real := convertToRealCoords (x2, y2)
  [ min p1Real.1 p2Real.1,
    min p1Real.2 p2Real.2,
    max p1Real.1 p2Real.1,
    max p1Real.2 p2Real.2 ]

/-- The result object `{zones, gotoPoints}` returned by `getLocations`. -/
structure ApiLocations where
  zones : List (List ℤ)
  gotoPoints : List (ℤ × ℤ)
deriving DecidableEq

/-- Function `getLocations`: zones are the `Zone` elements of the list converted by
`prepareZoneCoordinatesForApi`; gotoPoints the `GotoPoint` elements
converted by `prepareGotoCoordinatesForApi`. -/
def getLocations (locations : List Loc) : ApiLocations :=
  { zones := (locations.filter Loc.isZone).filterMap fun l =>
      match l with
      | .zone x1 y1 x2 y2 _ => some (prepareZoneCoordinatesForApi x1 y1 x2 y2)
      | _ => none
    gotoPoints := (locations.filter Loc.isGoto).filterMap fun l =>
      match l with
      | .gotoPoint x y _ => some (prepareGotoCoordinatesForApi x y)
      | _ => none }

/-- The `{updatedLocation?, stopPropagation}` object returned by a
location's `tap` / `translate` handler. -/
structure HandlerResult (α : Type) where
  updatedLocation : Option α
  stopPropagation : Bool
deriving DecidableEq

/-- The dispatch loop shared by `tap` and `moveTranslate` in `client/src`:
`for (let i = 0; i < this.locations.length; ++i)` — locations without a
`translate` capability are skipped; otherwise the handler runs, its
`updatedLocation` replaces the location when present and otherwise
`splice(i, 1); i--` removes it in place; on `stopPropagation === true` the
loop returns at once.  Result: the mutated list and whether some location
stopped propagation. -/
def dispatchLoop {α : Type} (cap : α → Bool) (handle : α → HandlerResult α) :
    List α → List α × Bool
  | [] => ([], false)
  | loc :: rest =>
    if cap loc then
      match (handle loc).updatedLocation, (handle loc).stopPropagation with
      | some u, true => (u :: rest, true)
      | some u, false =>
        let r := dispatchLoop cap handle rest
        (u :: r.1, r.2)
      | none, true => (rest, true)
      | none, false => dispatchLoop cap handle rest
    else
      let r := dispatchLoop cap handle rest
      (loc :: r.1, r.2)

/-- Companion to `dispatchLoop` recording which locations' handlers were
invoked, in invocation order. -/
def dispatchInvoked {α : Type} (cap : α → Bool) (handle : α → HandlerResult α) :
    List α → List α
  | [] => []
  | loc :: rest =>
    if cap loc then
      if (handle loc).stopPropagation then [loc]
      else loc :: dispatchInvoked cap handle rest
    else dispatchInvoked cap handle rest

/-- The list a dispatch prefix leaves behind when none of its elements
stops propagation: handled elements are replaced by their
`updatedLocation` (dropped in place when it is absent), unhandled ones
kept. -/
def dispatchProcessed {α : Type} (cap : α → Bool) (handle : α → HandlerResult α)
    (l : List α) : List α :=
  l.filterMap fun x => if cap x then (handle x).updatedLocation else some x

/-- Modelled from the spec: both `GotoPoint` and `Zone` expose the
`translate` capability (`locations.js` is not under src), so the loop's
`typeof location.translate === "function"` test is true for every
location. -/
def hasTranslate : Loc → Bool := fun _ => true

/-- The tail of `tap` after the dispatch loop (reached only when no
location stopped propagation): an empty list gets a fresh `GotoPoint` at
the tapped map-space point; a singleton `GotoPoint` list gets its element
replaced by a fresh `GotoPoint` there; otherwise nothing.  The fresh
point's `active` flag defaults to `false` (the `GotoPoint` constructor is
in the missing `locations.js`; the flag is irrelevant to the claims). -/
def tapPush (pt : ℚ × ℚ) (locations : List Loc) : List Loc :=
  match locations with
  | [] => [Loc.gotoPoint pt.1 pt.2 false]
  | [l] => if l.isGoto then [Loc.gotoPoint pt.1 pt.2 false] else [l]
  | _ => locations

/-- The `tap` event handler of `client/src`, as a function of the
per-gesture handler results: dispatch over the locations list, then — only
when no location stopped propagation — the `GotoPoint` placement logic. -/
def tap (handle : Loc → HandlerResult Loc) (pt : ℚ × ℚ)
    (locations : List Loc) : List Loc :=
  let r := dispatchLoop hasTranslate handle locations
  if r.2 then r.1 else tapPush pt r.1

/-- Copy of the location with its `active` flag cleared (`location.active = false`). -/
def Loc.deactivate : Loc → Loc
  | .gotoPoint x y _ => .gotoPoint x y false
  | .zone x1 y1 x2 y2 _ => .zone x1 y1 x2 y2 false

/-- Function `addZone` from `client/src`: deactivate every existing location, then
push a `new Zone(480, 480, 550, 550)`. -/
def addZone (locations : List Loc) : List Loc :=
  (locations.map Loc.deactivate) ++ [Loc.zone 480 480 550 550 false]

/-- Modelled from the spec: handler results are variant-preserving — a
`GotoPoint` handler's `updatedLocation` is again a `GotoPoint`, a `Zone`'s
again a `Zone` (section 4.3 of the spec; `locations.js` is not under
src). -/
def variantPreserving (handle : Loc → HandlerResult Loc) : Prop :=
  ∀ l u, (handle l).updatedLocation = some u → l.isGoto = u.isGoto

/-- States of the locations list reachable from the initial empty list by
`tap` events (with any variant-preserving handler results) and `addZone`
calls. -/
inductive Reachable : List Loc → Prop where
  | nil : Reachable []
  | tap (handle : Loc → HandlerResult Loc) (pt : ℚ × ℚ) (l : List Loc)
      (hvp : variantPreserving handle) (h : Reachable l) :
      Reachable (tap handle pt l)
  | addZone (l : List Loc) (h : Reachable l) : Reachable (addZone l)

/-- Number of `GotoPoint` elements in the locations list. -/
def countGoto (l : List Loc) : ℕ :=
  (l.filter Loc.isGoto).length

/-- A trivial concrete handler: keep every location, never stop
propagation. -/
def keepHandler : Loc → HandlerResult Loc := fun l => ⟨some l, false⟩

/-- A concrete capability predicate on naturals (evens are capable), used
to exercise the dispatch loop. -/
def cexCap : ℕ → Bool := fun n => n % 2 == 0

/-- A concrete handler on naturals: element 4 is removed (no
`updatedLocation`), element 6 stops propagation, everything else is
replaced by itself plus 10. -/
def cexHandle : ℕ → HandlerResult ℕ :=
  fun n => ⟨if n = 4 then none else some (n + 10), n == 6⟩

/-- The canvas transform as maintained by the vacuum-map widget: after
initialization only `ctx.scale(f, f)` (uniform) and `ctx.translate` are
applied, so the matrix always has the shape
`(x, y) ↦ (s·x + tx, s·y + ty)`. -/
structure Transform where
  s : ℚ
  tx : ℚ
  ty : ℚ
deriving DecidableEq

/-- Operation `ctx.scale(f, f)`: right-multiplies the matrix by a uniform scale. -/
def Transform.scaleBy (t : Transform) (f : ℚ) : Transform :=
  { t with s := t.s * f }

/-- Operation `ctx.translate(dx, dy)`: right-multiplies the matrix by a
translation. -/
def Transform.translate (t : Transform) (dx dy : ℚ) : Transform :=
  { t with tx := t.tx + t.s * dx, ty := t.ty + t.s * dy }

/-- Modelled from the spec: `ctx.transformedPoint` from the missing
`tracked-canvas.js` applies the inverse matrix to a screen point
(spec 4.1, "applies the inverse matrix"). -/
def Transform.transformedPoint (t : Transform) (x y : ℚ) : ℚ × ℚ :=
  ((x - t.tx) / t.s, (y - t.ty) / t.s)

/-- Modelled from the spec: `ctx.getScaleFactor2d` from the missing
`tracked-canvas.js` returns the per-axis magnitudes of the matrix's
linear component (spec 4.1). -/
def Transform.getScaleFactor2d (t : Transform) : ℚ × ℚ := (|t.s|, |t.s|)

/-- The widget state touched by the pinch and scroll handlers: the
tracked canvas transform, the pan bookkeeping (`lastX`, `lastY`,
`dragStart`), the pinch accumulator `lastScaleFactor`, and the log of
`pathDrawer.scale(...)` calls made so far (most recent last). -/
structure GestureState where
  tr : Transform
  lastX : ℚ
  lastY : ℚ
  dragStart : Option (ℚ × ℚ)
  lastScaleFactor : ℚ
  rescaleCalls : List ℚ
deriving DecidableEq

/-- Handler `startPinch`: reset the scale accumulator to 1, record the center as
the pan anchor. -/
def startPinch (st : GestureState) (cx cy : ℚ) : GestureState :=
  { st with
    lastScaleFactor := 1
    lastX := cx
    lastY := cy
    dragStart := some (st.tr.transformedPoint cx cy) }

/-- Handler `scalePinch` (the `pinchmove` event): apply the incremental factor
`evt.scale / lastScaleFactor` as a scale about the center point, then
re-sync the pan tracking and translate by the drift from `dragStart`.
It never calls `pathDrawer.scale`. -/
def scalePinch (st : GestureState) (scale cx cy : ℚ) : GestureState :=
  let factor := scale / st.lastScaleFactor
  let pt := st.tr.transformedPoint cx cy
  let tr1 := ((st.tr.translate pt.1 pt.2).scaleBy factor).translate (-pt.1) (-pt.2)
  let p := tr1.transformedPoint cx cy
  let ds := st.dragStart.getD (0, 0)
  let tr2 := tr1.translate (p.1 - ds.1) (p.2 - ds.2)
  { st with tr := tr2, lastScaleFactor := scale, lastX := cx, lastY := cy }

/-- Handler `endPinch`: read `ctx.getScaleFactor2d()`, call
`pathDrawer.scale(scaleX)` once, then `endTranslate` (clears
`dragStart`). -/
def endPinch (st : GestureState) : GestureState :=
  let sf := st.tr.getScaleFactor2d
  { st with rescaleCalls := st.rescaleCalls ++ [sf.1], dragStart := none }

/-- Handler `handleScroll` with a nonzero normalized wheel delta (the
`mousewheel` / `DOMMouseScroll` handler of the vacuum-map widget): zoom
about the pointer by `Math.pow(1.1, delta)`, then call
`pathDrawer.scale(scaleX)` once.  No clamping of the scale occurs. -/
def handleScroll (st : GestureState) (offsetX offsetY : ℚ) (delta : ℤ) :
    GestureState :=
  let pt := st.tr.transformedPoint offsetX offsetY
  let factor := (11 / 10 : ℚ) ^ delta
  let tr1 := ((st.tr.translate pt.1 pt.2).scaleBy factor).translate (-pt.1) (-pt.2)
  let sf := tr1.getScaleFactor2d
  { st with tr := tr1, rescaleCalls := st.rescaleCalls ++ [sf.1] }

/-- The events of one pinch gesture. -/
inductive PinchEv where
  | start (cx cy : ℚ)
  | move (scale cx cy : ℚ)
  | stop
deriving DecidableEq

/-- Dispatch one pinch event to its handler. -/
def pinchStep (st : GestureState) : PinchEv → GestureState
  | .start cx cy => startPinch st cx cy
  | .move s cx cy => scalePinch st s cx cy
  | .stop => endPinch st

/-- Run a sequence of pinch events. -/
def runPinch (st : GestureState) (evs : List PinchEv) : GestureState :=
  evs.foldl pinchStep st

/-- The fields of a parsed live-update message that `updateMap` consumes
(`mapData.image`, `mapData.path`, `mapData.robot`), with abstract
payload types. -/
structure MapData (ι π ρ : Type) where
  image : ι
  path : π
  robot : ρ

/-- The widget state the live-update path touches: the last image frame
handed to `mapDrawer.draw`, the last path/robot pair handed to
`pathDrawer.setPath`, and the number of heartbeat-timeout resets. -/
structure LiveState (ι π ρ : Type) where
  imageFrame : Option ι
  pathFrame : Option (π × ρ)
  heartbeatResets : ℕ

/-- Function `updateMap`: distributes the parsed message into the drawers. -/
def updateMap {ι π ρ : Type} (st : LiveState ι π ρ) (md : MapData ι π ρ) :
    LiveState ι π ρ :=
  { st with imageFrame := some md.image, pathFrame := some (md.path, md.robot) }

/-- The websocket `onmessage` handler of `_initWebSocket`: first reset the
heartbeat timeout, then — only for a non-empty payload — `JSON.parse` it
and `updateMap`; a parse failure is caught and discarded.  `parse` models
the external `JSON.parse`, `none` being a thrown SyntaxError. -/
def onMessage {ι π ρ : Type} (parse : String → Option (MapData ι π ρ))
    (st : LiveState ι π ρ) (data : String) : LiveState ι π ρ :=
  let st1 := { st with heartbeatResets := st.heartbeatResets + 1 }
  if data ≠ "" then
    match parse data with
    | some md => updateMap st1 md
    | none => st1
  else st1

end VacuumMap

namespace RawMap

/-- The raw-map renderer state relevant to the viewport transform:
`this.scale` and `this.viewportPosition`. -/
structure MapState where
  scale : ℚ
  posX : ℚ
  posY : ℚ
deriving DecidableEq

/-- Method `Map.prototype.transformViewportToMap`. -/
def transformViewportToMap (st : MapState) (p : ℚ × ℚ) : ℚ × ℚ :=
  (st.posX + p.1 / st.scale, st.posY + p.2 / st.scale)

/-- Method `Map.prototype.transformMapToViewport`. -/
def transformMapToViewport (st : MapState) (p : ℚ × ℚ) : ℚ × ℚ :=
  ((p.1 - st.posX) * st.scale, (p.2 - st.posY) * st.scale)

/-- The `mousewheel` listener of `Map.js`: a positive `wheelDelta` grows
the scale by 20%, a negative one shrinks it by 20%; the scale is then
clamped from below at 1.0, and the viewport position adjusted to keep the
pointer stationary. -/
def mousewheelZoom (st : MapState) (x y : ℚ) (wheelDeltaPos : Bool) :
    MapState :=
  let xpos := x / st.scale
  let ypos := y / st.scale
  let s1 := if wheelDeltaPos then st.scale + 2 / 10 * st.scale
            else st.scale - 2 / 10 * st.scale
  let s2 := if s1 < 1 then 1 else s1
  { scale := s2
    posX := st.posX - (x / s2 - xpos)
    posY := st.posY - (y / s2 - ypos) }

/-- Primitive `DataView.getUint32` (big-endian, the default) over four bytes. -/
def u32be (b0 b1 b2 b3 : ℕ) : ℕ :=
  ((b0 * 256 + b1) * 256 + b2) * 256 + b3

/-- The image-payload decode loop of `updateMapData`: while bytes remain,
read a 4-byte big-endian pixel index (`getUint32(bytePos++)` followed by
`bytePos += 3`), then one byte each of r, g, b.  A read past the end of
the buffer is a DataView RangeError, modelled as `none`. -/
def decodeImage : List ℕ → Option (List (ℕ × ℕ × ℕ × ℕ))
  | [] => some []
  | b0 :: b1 :: b2 :: b3 :: r :: g :: b :: rest =>
    (decodeImage rest).map fun ps => (u32be b0 b1 b2 b3, r, g, b) :: ps
  | _ :: _ => none

/-- The path-payload decode loop of `drawPath`: while bytes remain, read a
4-byte big-endian x, then a 4-byte big-endian y (each a
`getUint32(bytePos++)` followed by `bytePos += 3`).  A read past the end
of the buffer is a DataView RangeError, modelled as `none`. -/
def decodePath : List ℕ → Option (List (ℕ × ℕ))
  | [] => some []
  | b0 :: b1 :: b2 :: b3 :: c0 :: c1 :: c2 :: c3 :: rest =>
    (decodePath rest).map fun ps => (u32be b0 b1 b2 b3, u32be c0 c1 c2 c3) :: ps
  | _ :: _ => none

/-- The image layout exactly as the claim words it: repeating records of
(pixel-index: 4 bytes big-endian, padding: 3 bytes, r: 1 byte, g: 1 byte,
b: 1 byte) — for comparison with `decodeImage`. -/
def decodeImageClaim : List ℕ → Option (List (ℕ × ℕ × ℕ × ℕ))
  | [] => some []
  | b0 :: b1 :: b2 :: b3 :: _ :: _ :: _ :: r :: g :: b :: rest =>
    (decodeImageClaim rest).map fun ps => (u32be b0 b1 b2 b3, r, g, b) :: ps
  | _ :: _ => none

/-- The path layout exactly as the claim words it: repeating pairs of
(x: 4 bytes, padding: 3 bytes, y: 4 bytes, padding: 3 bytes) — for
comparison with `decodePath`. -/
def decodePathClaim : List ℕ → Option (List (ℕ × ℕ))
  | [] => some []
  | b0 :: b1 :: b2 :: b3 :: _ :: _ :: _ ::
      c0 :: c1 :: c2 :: c3 :: _ :: _ :: _ :: rest =>
    (decodePathClaim rest).map fun ps =>
      (u32be b0 b1 b2 b3, u32be c0 c1 c2 c3) :: ps
  | _ :: _ => none

end RawMap

/-- C3: for every `Zone`, the emitted 4-tuple is the per-axis min/max of the
two independently converted corners, hence its first entry is ≤ its third
and its second ≤ its fourth, regardless of corner order. -/
theorem c3_zone_order_normalized (x1 y1 x2 y2 : ℚ) :
    (VacuumMap.prepareZoneCoordinatesForApi x1 y1 x2 y2 =
      [ min (VacuumMap.convertToRealCoords (x1, y1)).1
            (VacuumMap.convertToRealCoords (x2, y2)).1,
        min (VacuumMap.convertToRealCoords (x1, y1)).2
            (VacuumMap.convertToRealCoords (x2, y2)).2,
        max (VacuumMap.convertToRealCoords (x1, y1)).1
            (VacuumMap.convertToRealCoords (x2, y2)).1,
        max (VacuumMap.convertToRealCoords (x1, y1)).2
            (VacuumMap.convertToRealCoords (x2, y2)).2 ]) ∧
    (VacuumMap.prepareZoneCoordinatesForApi x1 y1 x2 y2)[0]! ≤
      (VacuumMap.prepareZoneCoordinatesForApi x1 y1 x2 y2)[2]! ∧
    (VacuumMap.prepareZoneCoordinatesForApi x1 y1 x2 y2)[1]! ≤
      (VacuumMap.prepareZoneCoordinatesForApi x1 y1 x2 y2)[3]! := by
  refine ⟨rfl, ?_, ?_⟩ <;>
    simp [VacuumMap.prepareZoneCoordinatesForApi]

/-- C4: converting a map-space point to millimeters with
`convertToRealCoords` (floor of 50·c) and back by dividing by 50 recovers
each coordinate to within 1 unit (in fact to within 1/50). -/
theorem c4_roundtrip_within_one (p : ℚ × ℚ) :
    |(VacuumMap.convertFromRealCoords (VacuumMap.convertToRealCoords p)).1 - p.1| ≤ 1 ∧
    |(VacuumMap.convertFromRealCoords (VacuumMap.convertToRealCoords p)).2 - p.2| ≤ 1 := by
  have h50 : (0:ℚ) < 50 := by norm_num
  constructor
  · simp only [VacuumMap.convertFromRealCoords, VacuumMap.convertToRealCoords]
    rw [abs_le]
    constructor
    · have h := Int.lt_floor_add_one (p.1 * 50)
      rw [div_sub' _ _ _ (ne_of_gt h50), le_div_iff h50]
      linarith
    · have h := Int.floor_le (p.1 * 50)
      rw [div_sub' _ _ _ (ne_of_gt h50), div_le_iff h50]
      linarith
  · simp only [VacuumMap.convertFromRealCoords, VacuumMap.convertToRealCoords]
    rw [abs_le]
    constructor
    · have h := Int.lt_floor_add_one (p.2 * 50)
      rw [div_sub' _ _ _ (ne_of_gt h50), le_div_iff h50]
      linarith
    · have h := Int.floor_le (p.2 * 50)
      rw [div_sub' _ _ _ (ne_of_gt h50), div_le_iff h50]
      linarith

theorem VacuumMap.dispatchLoop_no_stop {α : Type} (cap : α → Bool)
    (handle : α → VacuumMap.HandlerResult α) (l : List α)
    (h : ∀ x ∈ l, cap x = true → (handle x).stopPropagation = false) :
    VacuumMap.dispatchLoop cap handle l =
      (VacuumMap.dispatchProcessed cap handle l, false) ∧
    VacuumMap.dispatchInvoked cap handle l = l.filter cap := by
  induction l with
  | nil =>
    simp [VacuumMap.dispatchLoop, VacuumMap.dispatchInvoked,
      VacuumMap.dispatchProcessed]
  | cons loc rest ih =>
    have hrest := ih (fun x hx => h x (List.mem_cons_of_mem _ hx))
    by_cases hc : cap loc = true
    · have hs := h loc (List.mem_cons_self _ _) hc
      cases hu : (handle loc).updatedLocation with
      | none =>
        simp [VacuumMap.dispatchLoop, VacuumMap.dispatchInvoked,
          VacuumMap.dispatchProcessed, List.filterMap_cons, List.filter_cons,
          hc, hs, hu, hrest.1, hrest.2]
      | some u =>
        simp [VacuumMap.dispatchLoop, VacuumMap.dispatchInvoked,
          VacuumMap.dispatchProcessed, List.filterMap_cons, List.filter_cons,
          hc, hs, hu, hrest.1, hrest.2]
    · simp only [Bool.not_eq_true] at hc
      simp [VacuumMap.dispatchLoop, VacuumMap.dispatchInvoked,
        VacuumMap.dispatchProcessed, List.filterMap_cons, List.filter_cons,
        hc, hrest.1, hrest.2]

/-- C1: dispatch over the locations list proceeds in list order — a
capability-bearing prefix whose handlers do not stop propagation is
replaced element-by-element by the handlers' `updatedLocation`s (elements
whose result omits `updatedLocation` are dropped in place, preserving the
order of the rest); the first location whose handler returns
`stopPropagation: true` ends the dispatch, so every later location is left
untouched and its handler is never invoked. -/
theorem c1_dispatch_order_stop_removal {α : Type} (cap : α → Bool)
    (handle : α → VacuumMap.HandlerResult α) (l1 l2 : List α) (loc : α)
    (hns : ∀ x ∈ l1, cap x = true → (handle x).stopPropagation = false)
    (hcap : cap loc = true)
    (hstop : (handle loc).stopPropagation = true) :
    VacuumMap.dispatchLoop cap handle (l1 ++ loc :: l2) =
      (VacuumMap.dispatchProcessed cap handle l1 ++
        ((handle loc).updatedLocation.toList ++ l2), true) ∧
    VacuumMap.dispatchInvoked cap handle (l1 ++ loc :: l2) =
      l1.filter cap ++ [loc] := by
  induction l1 with
  | nil =>
    cases hu : (handle loc).updatedLocation with
    | none =>
      simp [VacuumMap.dispatchLoop, VacuumMap.dispatchInvoked,
        VacuumMap.dispatchProcessed, hcap, hstop, hu]
    | some u =>
      simp [VacuumMap.dispatchLoop, VacuumMap.dispatchInvoked,
        VacuumMap.dispatchProcessed, hcap, hstop, hu]
  | cons x l1' ih =>
    have hx := hns x (List.mem_cons_self _ _)
    have ih' := ih (fun y hy => hns y (List.mem_cons_of_mem _ hy))
    by_cases hc : cap x = true
    · have hs := hx hc
      cases hu : (handle x).updatedLocation with
      | none =>
        simp [VacuumMap.dispatchLoop, VacuumMap.dispatchInvoked,
          VacuumMap.dispatchProcessed, List.filterMap_cons, List.filter_cons,
          hc, hs, hu, ih'.1, ih'.2]
      | some u =>
        simp [VacuumMap.dispatchLoop, VacuumMap.dispatchInvoked,
          VacuumMap.dispatchProcessed, List.filterMap_cons, List.filter_cons,
          hc, hs, hu, ih'.1, ih'.2]
    · simp only [Bool.not_eq_true] at hc
      simp [VacuumMap.dispatchLoop, VacuumMap.dispatchInvoked,
        VacuumMap.dispatchProcessed, List.filterMap_cons, List.filter_cons,
        hc, ih'.1, ih'.2]

theorem c1_witness :
    VacuumMap.dispatchLoop VacuumMap.cexCap VacuumMap.cexHandle
        ([1, 2, 4] ++ 6 :: [8, 3]) =
      (VacuumMap.dispatchProcessed VacuumMap.cexCap VacuumMap.cexHandle [1, 2, 4] ++
        (((VacuumMap.cexHandle 6).updatedLocation).toList ++ [8, 3]), true) ∧
    VacuumMap.dispatchInvoked VacuumMap.cexCap VacuumMap.cexHandle
        ([1, 2, 4] ++ 6 :: [8, 3]) =
      [1, 2, 4].filter VacuumMap.cexCap ++ [6] :=
  c1_dispatch_order_stop_removal VacuumMap.cexCap VacuumMap.cexHandle
    [1, 2, 4] [8, 3] 6 (by decide) (by decide) (by decide)

theorem VacuumMap.countGoto_cons (l : VacuumMap.Loc) (rest : List VacuumMap.Loc) :
    VacuumMap.countGoto (l :: rest) =
      (if l.isGoto then 1 else 0) + VacuumMap.countGoto rest := by
  by_cases h : l.isGoto = true <;>
    simp [VacuumMap.countGoto, List.filter_cons, h, Nat.add_comm]

theorem VacuumMap.countGoto_dispatchLoop_le
    (handle : VacuumMap.Loc → VacuumMap.HandlerResult VacuumMap.Loc)
    (hvp : VacuumMap.variantPreserving handle) (l : List VacuumMap.Loc) :
    VacuumMap.countGoto
      (VacuumMap.dispatchLoop VacuumMap.hasTranslate handle l).1 ≤
    VacuumMap.countGoto l := by
  induction l with
  | nil => simp [VacuumMap.dispatchLoop]
  | cons loc rest ih =>
    cases hu : (handle loc).updatedLocation with
    | none =>
      cases hs : (handle loc).stopPropagation with
      | true =>
        simp only [VacuumMap.dispatchLoop, VacuumMap.hasTranslate, hu, hs,
          VacuumMap.countGoto_cons, if_true]
        omega
      | false =>
        simp only [VacuumMap.dispatchLoop, VacuumMap.hasTranslate, hu, hs,
          VacuumMap.countGoto_cons, if_true]
        omega
    | some u =>
      have hg := hvp loc u hu
      cases hs : (handle loc).stopPropagation with
      | true =>
        simp [VacuumMap.dispatchLoop, VacuumMap.hasTranslate, hu, hs,
          VacuumMap.countGoto_cons, ← hg]
      | false =>
        simp [VacuumMap.dispatchLoop, VacuumMap.hasTranslate, hu, hs,
          VacuumMap.countGoto_cons, ← hg]
        omega

theorem VacuumMap.countGoto_tapPush_le (pt : ℚ × ℚ) (l : List VacuumMap.Loc)
    (h : VacuumMap.countGoto l ≤ 1) :
    VacuumMap.countGoto (VacuumMap.tapPush pt l) ≤ 1 := by
  match l with
  | [] =>
    simp [VacuumMap.tapPush, VacuumMap.countGoto, VacuumMap.Loc.isGoto]
  | [x] =>
    by_cases hx : x.isGoto = true <;>
      simp_all [VacuumMap.tapPush, VacuumMap.countGoto, VacuumMap.Loc.isGoto]
  | x :: y :: rest => simpa [VacuumMap.tapPush] using h

theorem VacuumMap.countGoto_map_deactivate (l : List VacuumMap.Loc) :
    VacuumMap.countGoto (l.map VacuumMap.Loc.deactivate) =
      VacuumMap.countGoto l := by
  induction l with
  | nil => rfl
  | cons x rest ih =>
    cases x <;>
      simp [VacuumMap.countGoto_cons, VacuumMap.Loc.deactivate,
        VacuumMap.Loc.isGoto, ih]

/-- C2: every locations list reachable by `tap` and `addZone` steps (with
variant-preserving handler results) contains at most one `GotoPoint`; and
tapping while the list holds exactly one `GotoPoint` (whose tap handler
returns an `updatedLocation`, as `GotoPoint` handlers do) leaves a list of
length 1 holding exactly one `GotoPoint` — the tap replaces the point
rather than adding a second one. -/
theorem c2_at_most_one_gotopoint :
    (∀ l, VacuumMap.Reachable l → VacuumMap.countGoto l ≤ 1) ∧
    (∀ (handle : VacuumMap.Loc → VacuumMap.HandlerResult VacuumMap.Loc)
      (pt : ℚ × ℚ) (x y : ℚ) (a : Bool),
      VacuumMap.variantPreserving handle →
      ((handle (VacuumMap.Loc.gotoPoint x y a)).updatedLocation).isSome = true →
      (VacuumMap.tap handle pt [VacuumMap.Loc.gotoPoint x y a]).length = 1 ∧
      VacuumMap.countGoto
        (VacuumMap.tap handle pt [VacuumMap.Loc.gotoPoint x y a]) = 1) := by
  constructor
  · intro l hreach
    induction hreach with
    | nil => simp [VacuumMap.countGoto]
    | tap handle pt l hvp h ih =>
      have hd := VacuumMap.countGoto_dispatchLoop_le handle hvp l
      unfold VacuumMap.tap
      by_cases hstop :
          (VacuumMap.dispatchLoop VacuumMap.hasTranslate handle l).2 = true
      · simpa [hstop] using le_trans hd ih
      · simp only [Bool.not_eq_true] at hstop
        simp only [hstop, Bool.false_eq_true, if_false]
        exact VacuumMap.countGoto_tapPush_le pt _ (le_trans hd ih)
    | addZone l h ih =>
      have h1 : VacuumMap.countGoto (VacuumMap.addZone l) =
          VacuumMap.countGoto (l.map VacuumMap.Loc.deactivate) := by
        simp [VacuumMap.addZone, VacuumMap.countGoto, List.filter_append,
          VacuumMap.Loc.isGoto]
      rw [h1, VacuumMap.countGoto_map_deactivate]
      exact ih
  · intro handle pt x y a hvp hsome
    obtain ⟨u, hu⟩ := Option.isSome_iff_exists.mp hsome
    have hg : u.isGoto = true := by
      have h := hvp (VacuumMap.Loc.gotoPoint x y a) u hu
      simpa [VacuumMap.Loc.isGoto] using h.symm
    cases u with
    | zone _ _ _ _ _ => simp [VacuumMap.Loc.isGoto] at hg
    | gotoPoint ux uy ua =>
      cases hs : (handle (VacuumMap.Loc.gotoPoint x y a)).stopPropagation with
      | true =>
        simp [VacuumMap.tap, VacuumMap.dispatchLoop, VacuumMap.hasTranslate,
          hu, hs, VacuumMap.countGoto, VacuumMap.Loc.isGoto]
      | false =>
        simp [VacuumMap.tap, VacuumMap.dispatchLoop, VacuumMap.hasTranslate,
          hu, hs, VacuumMap.tapPush, VacuumMap.countGoto, VacuumMap.Loc.isGoto]

theorem c2_witness :
    VacuumMap.countGoto [] ≤ 1 ∧
    (VacuumMap.tap VacuumMap.keepHandler (1, 2)
      [VacuumMap.Loc.gotoPoint 3 4 false]).length = 1 :=
  ⟨c2_at_most_one_gotopoint.1 [] VacuumMap.Reachable.nil,
   (c2_at_most_one_gotopoint.2 VacuumMap.keepHandler (1, 2) 3 4 false
      (fun l u h => by
        simp only [VacuumMap.keepHandler, Option.some.injEq] at h
        rw [h])
      rfl).1⟩

/-- C7: a tap at map-space point (100, 200) on an empty locations list
creates exactly one `GotoPoint` at (100, 200), and `getLocations` then
returns no zones and `gotoPoints = [(5000, 10000)]`. -/
theorem c7_tap_then_getLocations
    (handle : VacuumMap.Loc → VacuumMap.HandlerResult VacuumMap.Loc) :
    VacuumMap.tap handle (100, 200) [] =
      [VacuumMap.Loc.gotoPoint 100 200 false] ∧
    VacuumMap.getLocations (VacuumMap.tap handle (100, 200) []) =
      { zones := [], gotoPoints := [(5000, 10000)] } := by
  constructor
  · rfl
  · show VacuumMap.getLocations [VacuumMap.Loc.gotoPoint 100 200 false] = _
    simp only [VacuumMap.getLocations, VacuumMap.Loc.isZone,
      VacuumMap.Loc.isGoto, List.filter, VacuumMap.prepareGotoCoordinatesForApi,
      VacuumMap.convertToRealCoords, List.filterMap_cons, List.filterMap_nil]
    norm_num

/-- C10: in the raw-map renderer, `transformViewportToMap` and
`transformMapToViewport` are mutual inverses whenever the scale is
positive. -/
theorem c10_viewport_map_inverses (st : RawMap.MapState) (p : ℚ × ℚ)
    (h : 0 < st.scale) :
    RawMap.transformMapToViewport st (RawMap.transformViewportToMap st p) = p ∧
    RawMap.transformViewportToMap st (RawMap.transformMapToViewport st p) = p := by
  obtain ⟨p1, p2⟩ := p
  have hne : st.scale ≠ 0 := ne_of_gt h
  constructor <;>
  · simp only [RawMap.transformViewportToMap, RawMap.transformMapToViewport,
      Prod.mk.injEq]
    constructor <;> field_simp <;> ring

theorem c10_witness :
    (0 : ℚ) < 2 ∧
    RawMap.transformMapToViewport ⟨2, 3, 4⟩
      (RawMap.transformViewportToMap ⟨2, 3, 4⟩ (5, 6)) = (5, 6) ∧
    RawMap.transformViewportToMap ⟨2, 3, 4⟩
      (RawMap.transformMapToViewport ⟨2, 3, 4⟩ (5, 6)) = (5, 6) :=
  ⟨by norm_num,
   (c10_viewport_map_inverses ⟨2, 3, 4⟩ (5, 6) (by norm_num)).1,
   (c10_viewport_map_inverses ⟨2, 3, 4⟩ (5, 6) (by norm_num)).2⟩

/-- C5 is false as stated: in the vacuum-map widget a single mouse-wheel
zoom-out (normalized delta −3, i.e. `wheelDelta = −120`) from scale 1
leaves the transform's scale factor `(10/11)³ < 1` — no clamping occurs
in that variant. -/
theorem c5_counterexample :
    (VacuumMap.handleScroll ⟨⟨1, 0, 0⟩, 0, 0, none, 1, []⟩ 0 0 (-3)).tr.s
      < 1 := by
  show (1 : ℚ) * ((11 / 10 : ℚ) ^ (-3 : ℤ)) < 1
  rw [zpow_neg]
  norm_num

/-- C5 (amended): only the raw-map renderer clamps — after every
mouse-wheel zoom there, the scale is at least 1.0 (the vacuum-map widget
applies wheel and pinch factors with no minimum clamp). -/
theorem c5_amended_rawmap_scale_clamped (st : RawMap.MapState) (x y : ℚ)
    (d : Bool) :
    1 ≤ (RawMap.mousewheelZoom st x y d).scale := by
  simp only [RawMap.mousewheelZoom]
  split <;> split
  · exact le_refl (1 : ℚ)
  · next h => exact not_lt.mp h
  · exact le_refl (1 : ℚ)
  · next h => exact not_lt.mp h

/-- C6 is false as stated: on the 14-byte payload
`[0,0,0,1, 7,7,7, 0,0,0,2, 7,7,7]` the claimed path layout (x:4,
padding:3, y:4, padding:3) yields the single point (1, 2), but the code's
decoder reads y from the four bytes directly after x, then runs off the
end of the buffer (RangeError); likewise for the claimed 10-byte image
layout versus the code's 7-byte records. -/
theorem c6_counterexample :
    RawMap.decodePath [0, 0, 0, 1, 7, 7, 7, 0, 0, 0, 2, 7, 7, 7] = none ∧
    RawMap.decodePathClaim [0, 0, 0, 1, 7, 7, 7, 0, 0, 0, 2, 7, 7, 7] =
      some [(1, 2)] ∧
    RawMap.decodeImage [0, 0, 0, 5, 9, 9, 9, 10, 20, 30] = none ∧
    RawMap.decodeImageClaim [0, 0, 0, 5, 9, 9, 9, 10, 20, 30] =
      some [(5, 10, 20, 30)] := by
  refine ⟨rfl, ?_, rfl, ?_⟩ <;> decide

/-- C6 (amended): the image payload is repeating 7-byte records
(pixel-index: 4 bytes big-endian, then r, g, b — no padding) and the path
payload repeating 8-byte records (x: 4 bytes big-endian, then y: 4 bytes
big-endian — no padding); the decoders consume exactly these layouts. -/
theorem c6_amended_record_layouts (b0 b1 b2 b3 b4 b5 b6 b7 : ℕ)
    (r1 r2 : List ℕ) :
    RawMap.decodePath (b0 :: b1 :: b2 :: b3 :: b4 :: b5 :: b6 :: b7 :: r1) =
      (RawMap.decodePath r1).map
        (fun ps => (RawMap.u32be b0 b1 b2 b3, RawMap.u32be b4 b5 b6 b7) :: ps) ∧
    RawMap.decodePath [] = some [] ∧
    RawMap.decodeImage (b0 :: b1 :: b2 :: b3 :: b4 :: b5 :: b6 :: r2) =
      (RawMap.decodeImage r2).map
        (fun ps => (RawMap.u32be b0 b1 b2 b3, b4, b5, b6) :: ps) ∧
    RawMap.decodeImage [] = some [] :=
  ⟨rfl, rfl, rfl, rfl⟩

/-- C9: the websocket `onmessage` handler always resets the heartbeat;
a payload that fails to parse is discarded with the image and path frames
untouched; an empty-string payload is a no-op beyond the heartbeat reset;
a non-empty payload that parses feeds `updateMap`. -/
theorem c9_malformed_message_discarded {ι π ρ : Type}
    (parse : String → Option (VacuumMap.MapData ι π ρ))
    (st : VacuumMap.LiveState ι π ρ) (data : String) :
    (parse data = none →
      (VacuumMap.onMessage parse st data).imageFrame = st.imageFrame ∧
      (VacuumMap.onMessage parse st data).pathFrame = st.pathFrame ∧
      (VacuumMap.onMessage parse st data).heartbeatResets =
        st.heartbeatResets + 1) ∧
    (data = "" →
      VacuumMap.onMessage parse st data =
        { st with heartbeatResets := st.heartbeatResets + 1 }) ∧
    (∀ md, data ≠ "" → parse data = some md →
      VacuumMap.onMessage parse st data =
        VacuumMap.updateMap
          { st with heartbeatResets := st.heartbeatResets + 1 } md) := by
  refine ⟨?_, ?_, ?_⟩
  · intro hp
    by_cases hd : data = ""
    · simp [VacuumMap.onMessage, hd]
    · simp [VacuumMap.onMessage, hd, hp]
  · intro hd
    simp [VacuumMap.onMessage, hd]
  · intro md hd hp
    simp [VacuumMap.onMessage, hd, hp]

theorem c9_witness :
    (VacuumMap.onMessage
        (fun _ => (none : Option (VacuumMap.MapData ℕ ℕ ℕ)))
        ⟨some 1, some (2, 3), 0⟩ "garbage").imageFrame = some 1 ∧
    (VacuumMap.onMessage
        (fun _ => (none : Option (VacuumMap.MapData ℕ ℕ ℕ)))
        ⟨some 1, some (2, 3), 0⟩ "garbage").pathFrame = some (2, 3) :=
  ⟨((c9_malformed_message_discarded
      (fun _ => (none : Option (VacuumMap.MapData ℕ ℕ ℕ)))
      ⟨some 1, some (2, 3), 0⟩ "garbage").1 rfl).1,
   ((c9_malformed_message_discarded
      (fun _ => (none : Option (VacuumMap.MapData ℕ ℕ ℕ)))
      ⟨some 1, some (2, 3), 0⟩ "garbage").1 rfl).2.1⟩

theorem VacuumMap.scalePinch_fields (st : VacuumMap.GestureState)
    (scale cx cy : ℚ) :
    (VacuumMap.scalePinch st scale cx cy).tr.s =
      st.tr.s * (scale / st.lastScaleFactor) ∧
    (VacuumMap.scalePinch st scale cx cy).lastScaleFactor = scale ∧
    (VacuumMap.scalePinch st scale cx cy).rescaleCalls = st.rescaleCalls ∧
    (VacuumMap.scalePinch st scale cx cy).dragStart = st.dragStart :=
  ⟨rfl, rfl, rfl, rfl⟩

theorem VacuumMap.runPinch_moves (moves : List (ℚ × ℚ × ℚ)) :
    ∀ st : VacuumMap.GestureState, 0 < st.lastScaleFactor →
      (∀ m ∈ moves, 0 < m.1) →
      (VacuumMap.runPinch st
          (moves.map fun m => VacuumMap.PinchEv.move m.1 m.2.1 m.2.2)).rescaleCalls
        = st.rescaleCalls ∧
      0 < (VacuumMap.runPinch st
          (moves.map fun m => VacuumMap.PinchEv.move m.1 m.2.1 m.2.2)).lastScaleFactor ∧
      (VacuumMap.runPinch st
          (moves.map fun m => VacuumMap.PinchEv.move m.1 m.2.1 m.2.2)).tr.s *
          st.lastScaleFactor =
        st.tr.s *
          (VacuumMap.runPinch st
            (moves.map fun m => VacuumMap.PinchEv.move m.1 m.2.1 m.2.2)).lastScaleFactor ∧
      (∀ h : moves ≠ [],
        (VacuumMap.runPinch st
            (moves.map fun m => VacuumMap.PinchEv.move m.1 m.2.1 m.2.2)).lastScaleFactor
          = (moves.getLast h).1) := by
  induction moves with
  | nil =>
    intro st hpos _
    refine ⟨rfl, hpos, rfl, ?_⟩
    intro h
    exact absurd rfl h
  | cons m rest ih =>
    intro st hpos hm
    have hm1 : 0 < m.1 := hm m (List.mem_cons_self _ _)
    have hrest : ∀ x ∈ rest, 0 < x.1 :=
      fun x hx => hm x (List.mem_cons_of_mem _ hx)
    have hstep : VacuumMap.runPinch st
        (((m :: rest).map fun x => VacuumMap.PinchEv.move x.1 x.2.1 x.2.2)) =
      VacuumMap.runPinch (VacuumMap.scalePinch st m.1 m.2.1 m.2.2)
        (rest.map fun x => VacuumMap.PinchEv.move x.1 x.2.1 x.2.2) := rfl
    set st1 := VacuumMap.scalePinch st m.1 m.2.1 m.2.2 with hst1
    have hf := VacuumMap.scalePinch_fields st m.1 m.2.1 m.2.2
    have ih' := ih st1 (by rw [hf.2.1]; exact hm1) hrest
    rw [hstep]
    refine ⟨by rw [ih'.1, hf.2.2.1], ih'.2.1, ?_, ?_⟩
    · have hinv := ih'.2.2.1
      rw [hf.1, hf.2.1] at hinv
      have hl : st.lastScaleFactor ≠ 0 := ne_of_gt hpos
      have hmne : m.1 ≠ 0 := ne_of_gt hm1
      apply mul_right_cancel₀ hmne
      calc (VacuumMap.runPinch st1
              (rest.map fun x => VacuumMap.PinchEv.move x.1 x.2.1 x.2.2)).tr.s *
            st.lastScaleFactor * m.1
          = (VacuumMap.runPinch st1
              (rest.map fun x => VacuumMap.PinchEv.move x.1 x.2.1 x.2.2)).tr.s *
            m.1 * st.lastScaleFactor := by ring
        _ = st.tr.s * (m.1 / st.lastScaleFactor) *
            (VacuumMap.runPinch st1
              (rest.map fun x => VacuumMap.PinchEv.move x.1 x.2.1 x.2.2)).lastScaleFactor *
            st.lastScaleFactor := by rw [hinv]
        _ = st.tr.s *
            (VacuumMap.runPinch st1
              (rest.map fun x => VacuumMap.PinchEv.move x.1 x.2.1 x.2.2)).lastScaleFactor *
            m.1 := by field_simp; ring
    · cases rest with
      | nil =>
        intro h
        exact hf.2.1
      | cons r rs =>
        intro h
        have hne : (r :: rs : List (ℚ × ℚ × ℚ)) ≠ [] := by simp
        have hlast := ih'.2.2.2 hne
        simpa [List.getLast_cons] using hlast

/-- C8: a pinch gesture — pinch-start about a center, any nonempty
sequence of pinch-moves with positive gesture scales whose final gesture
scale is 2.0, then pinch-end — starting from a transform with scale
factor 1 makes exactly one `pathDrawer.scale` call during the whole
gesture (none during the moves), and that call passes factor 2.0, the
final global scale factor. -/
theorem c8_pinch_single_rescale (tx ty lx ly cx cy : ℚ)
    (moves : List (ℚ × ℚ × ℚ)) (hne : moves ≠ [])
    (hpos : ∀ m ∈ moves, 0 < m.1)
    (hlast : (moves.getLast hne).1 = 2) :
    (VacuumMap.runPinch ⟨⟨1, tx, ty⟩, lx, ly, none, 1, []⟩
      ((VacuumMap.PinchEv.start cx cy ::
        moves.map fun m => VacuumMap.PinchEv.move m.1 m.2.1 m.2.2) ++
        [VacuumMap.PinchEv.stop])).rescaleCalls = [2] := by
  have hmain := VacuumMap.runPinch_moves moves
    (VacuumMap.startPinch ⟨⟨1, tx, ty⟩, lx, ly, none, 1, []⟩ cx cy)
    (by norm_num [VacuumMap.startPinch]) hpos
  obtain ⟨hA, hB, hC, hD⟩ := hmain
  have hD2 := hD hne
  rw [hlast] at hD2
  have hs : (VacuumMap.runPinch
      (VacuumMap.startPinch ⟨⟨1, tx, ty⟩, lx, ly, none, 1, []⟩ cx cy)
      (moves.map fun m => VacuumMap.PinchEv.move m.1 m.2.1 m.2.2)).tr.s = 2 := by
    have h1 : (VacuumMap.startPinch ⟨⟨1, tx, ty⟩, lx, ly, none, 1, []⟩
        cx cy).lastScaleFactor = 1 := rfl
    have h2 : (VacuumMap.startPinch ⟨⟨1, tx, ty⟩, lx, ly, none, 1, []⟩
        cx cy).tr.s = 1 := rfl
    rw [h1, h2, mul_one, one_mul, hD2] at hC
    exact hC
  have hcalls : (VacuumMap.runPinch
      (VacuumMap.startPinch ⟨⟨1, tx, ty⟩, lx, ly, none, 1, []⟩ cx cy)
      (moves.map fun m => VacuumMap.PinchEv.move m.1 m.2.1 m.2.2)).rescaleCalls
      = [] := hA
  have hrun : VacuumMap.runPinch ⟨⟨1, tx, ty⟩, lx, ly, none, 1, []⟩
      ((VacuumMap.PinchEv.start cx cy ::
        moves.map fun m => VacuumMap.PinchEv.move m.1 m.2.1 m.2.2) ++
        [VacuumMap.PinchEv.stop]) =
      VacuumMap.endPinch (VacuumMap.runPinch
        (VacuumMap.startPinch ⟨⟨1, tx, ty⟩, lx, ly, none, 1, []⟩ cx cy)
        (moves.map fun m => VacuumMap.PinchEv.move m.1 m.2.1 m.2.2)) := by
    simp only [VacuumMap.runPinch, List.cons_append, List.foldl_cons,
      List.foldl_append, List.foldl_nil]
    rfl
  rw [hrun]
  simp [VacuumMap.endPinch, VacuumMap.Transform.getScaleFactor2d, hs, hcalls]

theorem c8_witness :
    (VacuumMap.runPinch ⟨⟨1, 0, 0⟩, 0, 0, none, 1, []⟩
      ((VacuumMap.PinchEv.start 512 512 ::
        [((2 : ℚ), (512 : ℚ), (512 : ℚ))].map fun m =>
          VacuumMap.PinchEv.move m.1 m.2.1 m.2.2) ++
        [VacuumMap.PinchEv.stop])).rescaleCalls = [2] :=
  c8_pinch_single_rescale 0 0 0 0 512 512 [(2, 512, 512)]
    (by simp)
    (by intro m hm; rw [List.mem_singleton] at hm; subst hm; norm_num)
    rfl
